import Mathlib

/-!
Verification of the AITradeGame portfolio accounting and scheduling core.

The SQLite tables of `database.py` are embedded as lists of row structures;
REAL columns become `ℚ` (the accounting identities are exact rational
arithmetic; float rounding is the "floating tolerance" of the spec), INTEGER
columns become `ℤ`, TEXT columns `String`.  Fallible Python code (subscripting
the result of `fetchone()`, division by zero) is embedded with `Except`.
-/

/-- A Python exception surfaced by the embedded operations.
`typeError` is what `None[...]` raises, `zeroDivisionError` what `x / 0`
raises; `notFound` is the structured error the spec's taxonomy names
(`NotFoundError`), which the code itself never constructs. -/
inductive PyError where
  | typeError
  | zeroDivisionError
  | notFound
deriving DecidableEq

/-- Row of the `models` table (columns used by the accounting core). -/
structure ModelRow where
  id : ℤ
  name : String
  initial_capital : ℚ
deriving DecidableEq

/-- Row of the `portfolios` table. -/
structure PositionRow where
  model_id : ℤ
  coin : String
  quantity : ℚ
  avg_price : ℚ
  leverage : ℤ
  side : String
deriving DecidableEq

/-- Row of the `trades` table. -/
structure TradeRow where
  model_id : ℤ
  coin : String
  signal : String
  quantity : ℚ
  price : ℚ
  leverage : ℤ
  side : String
  pnl : ℚ
deriving DecidableEq

/-- Row of the `conversations` table. -/
structure ConversationRow where
  model_id : ℤ
  user_prompt : String
  ai_response : String
  cot_trace : String
deriving DecidableEq

/-- Row of the `account_values` table. -/
structure AccountValueRow where
  model_id : ℤ
  total_value : ℚ
  cash : ℚ
  positions_value : ℚ
deriving DecidableEq

/-- The whole SQLite store: the five tables created by `Database.init_db`. -/
structure Store where
  models : List ModelRow
  portfolios : List PositionRow
  trades : List TradeRow
  conversations : List ConversationRow
  account_values : List AccountValueRow
deriving DecidableEq

/-- The empty database. -/
def emptyStore : Store := ⟨[], [], [], [], []⟩

/-- Python dict lookup on an association list: `d[k]` if `k in d`. -/
def dict_get (d : List (String × ℚ)) (k : String) : Option ℚ :=
  (d.find? (fun kv => decide (kv.1 = k))).map (·.2)

/-- `SELECT * FROM portfolios WHERE model_id = ? AND quantity > 0`
(database.py line 226). -/
def open_positions (st : Store) (model_id : ℤ) : List PositionRow :=
  st.portfolios.filter (fun p => decide (p.model_id = model_id ∧ 0 < p.quantity))

/-- `SELECT COALESCE(SUM(pnl), 0) FROM trades WHERE model_id = ?`
(database.py line 236): the realized P&L of a model. -/
def realized_pnl_sum (st : Store) (model_id : ℤ) : ℚ :=
  ((st.trades.filter (fun t => decide (t.model_id = model_id))).map (·.pnl)).sum

/-- `margin_used = sum([p.quantity * p.avg_price / p.leverage for p in positions])`
(database.py line 242). -/
def margin_of (ps : List PositionRow) : ℚ :=
  (ps.map (fun p => p.quantity * p.avg_price / (p.leverage : ℚ))).sum

/-- `positions_value = sum([p.quantity * p.avg_price for p in positions])`
(database.py line 277). -/
def value_of (ps : List PositionRow) : ℚ :=
  (ps.map (fun p => p.quantity * p.avg_price)).sum

/-- A position as returned by `get_portfolio`: the stored row plus the
`current_price` and `pnl` keys the function adds to the dict. -/
structure PositionOut where
  row : PositionRow
  current_price : Option ℚ
  pnl : ℚ
deriving DecidableEq

/-- The body of the positions loop of `get_portfolio` (database.py
lines 247-267): if the coin has a current price, attach it and compute the
side-signed P&L, otherwise attach `None` and `0`. -/
def price_position (current_prices : List (String × ℚ)) (p : PositionRow) : PositionOut :=
  match dict_get current_prices p.coin with
  | some current_price =>
      { row := p
        current_price := some current_price
        pnl := if p.side = "long" then (current_price - p.avg_price) * p.quantity
               else (p.avg_price - current_price) * p.quantity }
  | none => { row := p, current_price := none, pnl := 0 }

/-- The positions list built by the loop of `get_portfolio` (database.py
lines 244-271): Python's falsy test `if current_prices:` sends both `None`
and the empty dict to the branch that stamps every position with
`current_price = None, pnl = 0`; otherwise each position goes through the
pricing loop body. -/
def out_positions (st : Store) (model_id : ℤ) (current_prices : List (String × ℚ)) :
    List PositionOut :=
  if current_prices.isEmpty then
    (open_positions st model_id).map (fun p => { row := p, current_price := none, pnl := 0 })
  else
    (open_positions st model_id).map (price_position current_prices)

/-- The dict returned by `Database.get_portfolio` (database.py lines 284-293). -/
structure Portfolio where
  model_id : ℤ
  cash : ℚ
  positions : List PositionOut
  positions_value : ℚ
  margin_used : ℚ
  total_value : ℚ
  realized_pnl : ℚ
  unrealized_pnl : ℚ
deriving DecidableEq

/-- `Database.get_portfolio` (database.py lines 215-293).

A missing model makes `cursor.fetchone()['initial_capital']` subscript `None`,
a `TypeError`; a position row with `leverage = 0` makes the margin sum raise
`ZeroDivisionError`.  Python's falsy test `if current_prices:` treats `None`
and the empty dict alike, so `current_prices` is a (possibly empty)
association list. -/
def get_portfolio (st : Store) (model_id : ℤ) (current_prices : List (String × ℚ)) :
    Except PyError Portfolio :=
  let positions := open_positions st model_id
  match st.models.find? (fun mr => decide (mr.id = model_id)) with
  | none => .error .typeError
  | some mr =>
    if positions.any (fun p => decide (p.leverage = 0)) then .error .zeroDivisionError
    else
      let initial_capital := mr.initial_capital
      let realized_pnl := realized_pnl_sum st model_id
      let margin_used := margin_of positions
      let outs := out_positions st model_id current_prices
      let unrealized_pnl := (outs.map (·.pnl)).sum
      let cash := initial_capital + realized_pnl - margin_used
      let positions_value := value_of positions
      let total_value := initial_capital + realized_pnl + unrealized_pnl
      .ok
        { model_id := model_id
          cash := cash
          positions := outs
          positions_value := positions_value
          margin_used := margin_used
          total_value := total_value
          realized_pnl := realized_pnl
          unrealized_pnl := unrealized_pnl }

/-- `Database.delete_model` (database.py lines 133-143): five `DELETE` filters. -/
def delete_model (st : Store) (model_id : ℤ) : Store :=
  { models := st.models.filter (fun mr => decide (¬ mr.id = model_id))
    portfolios := st.portfolios.filter (fun p => decide (¬ p.model_id = model_id))
    trades := st.trades.filter (fun t => decide (¬ t.model_id = model_id))
    conversations := st.conversations.filter (fun c => decide (¬ c.model_id = model_id))
    account_values := st.account_values.filter (fun a => decide (¬ a.model_id = model_id)) }

/-- `Database.add_trade` (database.py lines 307-317): `INSERT INTO trades`. -/
def add_trade (st : Store) (t : TradeRow) : Store :=
  { st with trades := st.trades ++ [t] }

/-- Modelled from the spec: `TradingEngine.execute_trading_cycle`
(trading_engine.py is not among the source files).  Per spec §4.3 a cycle
first values the portfolio — `PortfolioValuer`, which fails when the model
does not exist — and only then decides, executes and snapshots; the store
effect of the decide/execute/snapshot phase is abstracted as `act`. -/
def execute_trading_cycle (act : Store → Store) (st : Store) (model_id : ℤ)
    (current_prices : List (String × ℚ)) : Except PyError Store :=
  match get_portfolio st model_id current_prices with
  | .error e => .error e
  | .ok _ => .ok (act st)

/-- The per-model loop of `trading_loop` (app.py lines 216-238): iterate over
the point-in-time snapshot of the registry; each model's cycle runs inside
`try/except Exception: ... continue`, so a failure is logged as `false` and
the sweep proceeds with the remaining models. -/
def sweep_models (acts : ℤ → Store → Store) (current_prices : List (String × ℚ)) :
    List ℤ → Store → Store × List (ℤ × Bool)
  | [], st => (st, [])
  | m :: rest, st =>
    match execute_trading_cycle (acts m) st m current_prices with
    | .ok st' =>
        let r := sweep_models acts current_prices rest st'
        (r.1, (m, true) :: r.2)
    | .error _ =>
        let r := sweep_models acts current_prices rest st
        (r.1, (m, false) :: r.2)

/-- Outcome of one pass of the `while auto_trading` body of `trading_loop`
(app.py lines 205-251): either the flag was cleared and the loop stops, or it
ran and sleeps `sleep_secs` before the next pass. -/
inductive IterOutcome where
  | stopped
  | ran (sleep_secs : ℕ) (log : List (ℤ × Bool))
deriving DecidableEq

/-- One pass of `trading_loop` (app.py lines 202-253).  `loop_fault` is an
exception escaping the per-model boundary during the pass (a defect caught by
the outer `except Exception` at line 246, followed by the 60-second backoff);
`registry.isEmpty` is the idle 30-second branch; a normal sweep is followed by
the 180-second inter-cycle sleep. -/
def trading_loop_iter (auto_trading : Bool) (acts : ℤ → Store → Store)
    (current_prices : List (String × ℚ)) (registry : List ℤ) (st : Store)
    (loop_fault : Option PyError) : IterOutcome × Store :=
  if auto_trading = false then (.stopped, st)
  else
    match loop_fault with
    | some _ => (.ran 60 [], st)
    | none =>
      if registry.isEmpty then (.ran 30 [], st)
      else
        let r := sweep_models acts current_prices registry st
        (.ran 180 r.2, r.1)

/-- The `while auto_trading` loop of `trading_loop`, run for `fuel` passes
starting at pass index `k`; `env` gives each pass its flag value, registry
snapshot and possible loop-level fault.  Returns `some j` when the loop
stopped at pass `j`, `none` when the fuel ran out with the loop still
running. -/
def trading_loop (acts : ℤ → Store → Store) (current_prices : List (String × ℚ))
    (env : ℕ → Bool × List ℤ × Option PyError) :
    ℕ → ℕ → Store → Option ℕ
  | 0, _, _ => none
  | fuel + 1, k, st =>
    let e := env k
    match trading_loop_iter e.1 acts current_prices e.2.1 st e.2.2 with
    | (.stopped, _) => some k
    | (.ran _ _, st') => trading_loop acts current_prices env fuel (k + 1) st'

/-- Modelled from the spec: the per-model execution mutex of
`CycleOrchestrator` (trading_engine.py is not among the source files).
Spec §5: acquisition is an atomic, non-blocking test-and-set — it returns at
once whether the lock was acquired, together with the new lock state. -/
def try_acquire (locked : Bool) : Bool × Bool := (!locked, true)

/-- Result of one `CycleOrchestrator.run` invocation: the cycle completed
(`done`), or the lock was already held (`concurrentError`). -/
inductive RunResult where
  | done
  | concurrentError
deriving DecidableEq

/-- Modelled from the spec: two simultaneous `CycleOrchestrator.run`
invocations for one model (spec §4.3 and §5) — both acquisition attempts
happen before either invocation completes, in the order chosen by
`a_first`; the loser returns `concurrentError` immediately and writes
nothing, the winner executes its cycle, appending its trade rows with
`add_trade`, and then releases the lock. -/
def race (a_first : Bool) (trades_a trades_b : List TradeRow) (st : Store) :
    (RunResult × RunResult) × Store :=
  let acq1 := try_acquire false
  let acq2 := try_acquire acq1.2
  let winner_trades := if a_first then trades_a else trades_b
  let st' := if acq1.1 then winner_trades.foldl add_trade st else st
  let res_first : RunResult := if acq1.1 then .done else .concurrentError
  let res_second : RunResult := if acq2.1 then .done else .concurrentError
  if a_first then ((res_first, res_second), st') else ((res_second, res_first), st')

/-- The spec's per-position unrealized P&L (spec §4.1): `(mark − avg) × qty`
for a long, `(avg − mark) × qty` for a short, `0` when the coin has no
current price. -/
def mark_pnl (current_prices : List (String × ℚ)) (p : PositionRow) : ℚ :=
  match dict_get current_prices p.coin with
  | some mark =>
      if p.side = "long" then (mark - p.avg_price) * p.quantity
      else (p.avg_price - mark) * p.quantity
  | none => 0

/-- The stored initial capital of a model (0 for an absent model). -/
def initial_capital_of (st : Store) (model_id : ℤ) : ℚ :=
  ((st.models.find? (fun mr => decide (mr.id = model_id))).map (·.initial_capital)).getD 0

/-! ### Helper lemmas about `get_portfolio` -/

theorem get_portfolio_of_find_eq_none {st : Store} {model_id : ℤ}
    (current_prices : List (String × ℚ))
    (hfind : st.models.find? (fun mr => decide (mr.id = model_id)) = none) :
    get_portfolio st model_id current_prices = .error .typeError := by
  simp [get_portfolio, hfind]

theorem get_portfolio_of_find_eq_some {st : Store} {model_id : ℤ} {mr : ModelRow}
    (current_prices : List (String × ℚ))
    (hfind : st.models.find? (fun r => decide (r.id = model_id)) = some mr)
    (hlev : (open_positions st model_id).any (fun p => decide (p.leverage = 0)) = false) :
    get_portfolio st model_id current_prices =
      .ok
        { model_id := model_id
          cash := mr.initial_capital + realized_pnl_sum st model_id
                    - margin_of (open_positions st model_id)
          positions := out_positions st model_id current_prices
          positions_value := value_of (open_positions st model_id)
          margin_used := margin_of (open_positions st model_id)
          total_value := mr.initial_capital + realized_pnl_sum st model_id
                           + ((out_positions st model_id current_prices).map (·.pnl)).sum
          realized_pnl := realized_pnl_sum st model_id
          unrealized_pnl := ((out_positions st model_id current_prices).map (·.pnl)).sum } := by
  simp [get_portfolio, hfind, hlev]

theorem get_portfolio_ok_inv {st : Store} {model_id : ℤ} {current_prices : List (String × ℚ)}
    {snap : Portfolio} (h : get_portfolio st model_id current_prices = .ok snap) :
    ∃ mr, st.models.find? (fun r => decide (r.id = model_id)) = some mr ∧
      (open_positions st model_id).any (fun p => decide (p.leverage = 0)) = false ∧
      snap =
        { model_id := model_id
          cash := mr.initial_capital + realized_pnl_sum st model_id
                    - margin_of (open_positions st model_id)
          positions := out_positions st model_id current_prices
          positions_value := value_of (open_positions st model_id)
          margin_used := margin_of (open_positions st model_id)
          total_value := mr.initial_capital + realized_pnl_sum st model_id
                           + ((out_positions st model_id current_prices).map (·.pnl)).sum
          realized_pnl := realized_pnl_sum st model_id
          unrealized_pnl := ((out_positions st model_id current_prices).map (·.pnl)).sum } := by
  cases hfind : st.models.find? (fun r => decide (r.id = model_id)) with
  | none => rw [get_portfolio_of_find_eq_none current_prices hfind] at h; cases h
  | some mr =>
    cases hlev : (open_positions st model_id).any (fun p => decide (p.leverage = 0)) with
    | true => simp [get_portfolio, hfind, hlev] at h
    | false =>
      rw [get_portfolio_of_find_eq_some current_prices hfind hlev] at h
      exact ⟨mr, rfl, rfl, (Except.ok.inj h).symm⟩

theorem out_positions_mem {st : Store} {model_id : ℤ} {current_prices : List (String × ℚ)}
    {q : PositionOut} (hq : q ∈ out_positions st model_id current_prices) :
    q.row ∈ open_positions st model_id ∧ q.pnl = mark_pnl current_prices q.row ∧
      q.current_price = dict_get current_prices q.row.coin := by
  unfold out_positions at hq
  by_cases hcp : current_prices.isEmpty
  · rw [if_pos hcp] at hq
    rcases List.mem_map.mp hq with ⟨p, hp, rfl⟩
    have hnil : current_prices = [] := List.isEmpty_iff.mp hcp
    subst hnil
    simp [mark_pnl, dict_get, hp]
  · rw [if_neg hcp] at hq
    rcases List.mem_map.mp hq with ⟨p, hp, rfl⟩
    unfold price_position mark_pnl
    cases hd : dict_get current_prices p.coin <;> simp [hd, hp]

theorem out_positions_surj {st : Store} {model_id : ℤ} (current_prices : List (String × ℚ))
    {p : PositionRow} (hp : p ∈ open_positions st model_id) :
    ∃ q ∈ out_positions st model_id current_prices, q.row = p := by
  unfold out_positions
  by_cases hcp : current_prices.isEmpty
  · exact ⟨_, by rw [if_pos hcp]; exact List.mem_map_of_mem _ hp, rfl⟩
  · refine ⟨price_position current_prices p,
      by rw [if_neg hcp]; exact List.mem_map_of_mem _ hp, ?_⟩
    unfold price_position
    cases dict_get current_prices p.coin <;> rfl

theorem out_positions_pnl_sum (st : Store) (model_id : ℤ)
    (current_prices : List (String × ℚ)) :
    ((out_positions st model_id current_prices).map (·.pnl)).sum
      = ((open_positions st model_id).map (mark_pnl current_prices)).sum := by
  unfold out_positions
  by_cases hcp : current_prices.isEmpty
  · have hnil : current_prices = [] := List.isEmpty_iff.mp hcp
    subst hnil
    rw [if_pos hcp, List.map_map]
    congr 1
  · rw [if_neg hcp, List.map_map]
    congr 1
    apply List.map_congr_left
    intro p _
    unfold price_position mark_pnl
    cases hd : dict_get current_prices p.coin <;> simp [hd]

/-! ### Witness data: a concrete store with one model, two live positions,
one zero-quantity row and one recorded trade. -/

def mMain : ModelRow := { id := 1, name := "alpha", initial_capital := 100000 }

def posBTC : PositionRow :=
  { model_id := 1, coin := "BTC", quantity := 1, avg_price := 50000, leverage := 2, side := "long" }

def posETH : PositionRow :=
  { model_id := 1, coin := "ETH", quantity := 10, avg_price := 3000, leverage := 1, side := "short" }

def posStale : PositionRow :=
  { model_id := 1, coin := "DOGE", quantity := 0, avg_price := 1, leverage := 1, side := "long" }

def trade1 : TradeRow :=
  { model_id := 1, coin := "BTC", signal := "close_long", quantity := 1, price := 55000
    leverage := 2, side := "long", pnl := 5000 }

def storeW : Store :=
  { models := [mMain], portfolios := [posBTC, posETH, posStale], trades := [trade1]
    conversations := [], account_values := [] }

def pricesW : List (String × ℚ) := [("BTC", 60000)]

def outBTC : PositionOut := { row := posBTC, current_price := some 60000, pnl := 10000 }

def outETH : PositionOut := { row := posETH, current_price := none, pnl := 0 }

def snapW : Portfolio :=
  { model_id := 1, cash := 50000, positions := [outBTC, outETH], positions_value := 80000
    margin_used := 55000, total_value := 115000, realized_pnl := 5000, unrealized_pnl := 10000 }

/-! ### The claims about `get_portfolio` -/

/-- C1: for every model and stored state, the snapshot returned by
`get_portfolio` satisfies `cash + margin_used = initial_capital +
realized_pnl_to_date`, where `margin_used` is the sum over open positions of
`quantity × avg_price / leverage` and the realized P&L is the sum of the
stored trades' `pnl` for that model. -/
theorem conservation_cash_plus_margin (st : Store) (model_id : ℤ)
    (current_prices : List (String × ℚ)) (snap : Portfolio)
    (h : get_portfolio st model_id current_prices = .ok snap) :
    snap.cash + snap.margin_used
        = initial_capital_of st model_id + realized_pnl_sum st model_id ∧
      snap.margin_used
        = ((open_positions st model_id).map
            (fun p => p.quantity * p.avg_price / (p.leverage : ℚ))).sum := by
  rcases get_portfolio_ok_inv h with ⟨mr, hfind, -, rfl⟩
  refine ⟨?_, rfl⟩
  simp only [initial_capital_of, hfind, Option.map_some', Option.getD_some]
  ring

/-- Valuating the concrete store at the concrete prices yields the concrete
snapshot (used to discharge the hypotheses of the witnesses). -/
theorem get_portfolio_storeW : get_portfolio storeW 1 pricesW = Except.ok snapW := by
  rw [@get_portfolio_of_find_eq_some storeW 1 mMain pricesW (by rfl) (by rfl)]
  norm_num [snapW, outBTC, outETH, storeW, mMain, posBTC, posETH, posStale, trade1, pricesW,
    open_positions, out_positions, price_position, dict_get, realized_pnl_sum, margin_of,
    value_of, (show ("BTC" : String) ≠ "ETH" by decide),
    (show ("short" : String) ≠ "long" by decide)]

/-- C1 witness: the conservation identity evaluated on the concrete store. -/
theorem conservation_cash_plus_margin_witness :
    snapW.cash + snapW.margin_used
        = initial_capital_of storeW 1 + realized_pnl_sum storeW 1 ∧
      snapW.margin_used
        = ((open_positions storeW 1).map
            (fun p => p.quantity * p.avg_price / (p.leverage : ℚ))).sum :=
  conservation_cash_plus_margin storeW 1 pricesW snapW get_portfolio_storeW

/-- C2: every open position whose coin has a current price gets that mark
price attached and its P&L computed as `(mark − avg) × qty` for a long and
`(avg − mark) × qty` otherwise, and the snapshot's `unrealized_pnl` is the sum
of the per-position P&L values. -/
theorem unrealized_position_marking (st : Store) (model_id : ℤ)
    (current_prices : List (String × ℚ)) (snap : Portfolio)
    (h : get_portfolio st model_id current_prices = .ok snap) :
    (∀ q ∈ snap.positions, ∀ price, dict_get current_prices q.row.coin = some price →
        q.current_price = some price ∧
          q.pnl = (if q.row.side = "long" then (price - q.row.avg_price) * q.row.quantity
                   else (q.row.avg_price - price) * q.row.quantity)) ∧
      snap.unrealized_pnl = (snap.positions.map (·.pnl)).sum := by
  rcases get_portfolio_ok_inv h with ⟨mr, -, -, rfl⟩
  refine ⟨?_, rfl⟩
  intro q hq price hprice
  rcases out_positions_mem hq with ⟨-, hpnl, hcur⟩
  refine ⟨by rw [hcur, hprice], ?_⟩
  rw [hpnl]
  simp [mark_pnl, hprice]

/-- C2 witness: the priced BTC position of the concrete store. -/
theorem unrealized_position_marking_witness :
    outBTC.current_price = some 60000 ∧
      outBTC.pnl = (if outBTC.row.side = "long"
                    then ((60000 : ℚ) - outBTC.row.avg_price) * outBTC.row.quantity
                    else (outBTC.row.avg_price - 60000) * outBTC.row.quantity) ∧
      snapW.unrealized_pnl = (snapW.positions.map (·.pnl)).sum := by
  have h := unrealized_position_marking storeW 1 pricesW snapW get_portfolio_storeW
  have hb := h.1 outBTC (by simp [snapW]) 60000 (by rfl)
  exact ⟨hb.1, hb.2, h.2⟩

/-- C3: a position whose coin is absent from the supplied prices is reported
with P&L `0` and no mark price, every position's P&L agrees with the spec's
marking formula, and valuation succeeds for every price mapping whatsoever —
a missing coin never raises. -/
theorem missing_price_tolerance (st : Store) (model_id : ℤ)
    (current_prices : List (String × ℚ)) (snap : Portfolio)
    (h : get_portfolio st model_id current_prices = .ok snap) :
    (∀ q ∈ snap.positions, dict_get current_prices q.row.coin = none →
        q.pnl = 0 ∧ q.current_price = none) ∧
      (∀ q ∈ snap.positions, q.pnl = mark_pnl current_prices q.row) ∧
      ∀ current_prices' : List (String × ℚ),
        ∃ snap', get_portfolio st model_id current_prices' = .ok snap' := by
  rcases get_portfolio_ok_inv h with ⟨mr, hfind, hlev, rfl⟩
  refine ⟨?_, ?_, ?_⟩
  · intro q hq hnone
    rcases out_positions_mem hq with ⟨-, hpnl, hcur⟩
    exact ⟨by rw [hpnl]; simp [mark_pnl, hnone], by rw [hcur, hnone]⟩
  · intro q hq
    exact (out_positions_mem hq).2.1
  · intro current_prices'
    exact ⟨_, get_portfolio_of_find_eq_some current_prices' hfind hlev⟩

/-- C3 witness: the ETH position has no quote in `pricesW`; it is reported
with zero P&L and no mark, and valuation also succeeds with no prices at
all. -/
theorem missing_price_tolerance_witness :
    outETH.pnl = 0 ∧ outETH.current_price = none ∧
      (get_portfolio storeW 1 []).isOk = true := by
  have h := missing_price_tolerance storeW 1 pricesW snapW get_portfolio_storeW
  have he := h.1 outETH (by simp [snapW]) (by rfl)
  rcases h.2.2 [] with ⟨snap', hsnap'⟩
  exact ⟨he.1, he.2, by rw [hsnap']; rfl⟩

/-- C4: the snapshot's `total_value` equals `initial_capital +
realized_pnl_to_date + unrealized_pnl_now`, where the realized P&L is the sum
of the model's stored trade P&L and the unrealized P&L marks the open
positions to the supplied prices. -/
theorem total_value_accounting (st : Store) (model_id : ℤ)
    (current_prices : List (String × ℚ)) (snap : Portfolio)
    (h : get_portfolio st model_id current_prices = .ok snap) :
    snap.total_value
        = initial_capital_of st model_id + realized_pnl_sum st model_id
            + ((open_positions st model_id).map (mark_pnl current_prices)).sum ∧
      snap.unrealized_pnl
        = ((open_positions st model_id).map (mark_pnl current_prices)).sum := by
  rcases get_portfolio_ok_inv h with ⟨mr, hfind, -, rfl⟩
  constructor <;>
    simp [initial_capital_of, hfind, out_positions_pnl_sum]

/-- C4 witness: the total-value identity evaluated on the concrete store. -/
theorem total_value_accounting_witness :
    snapW.total_value
        = initial_capital_of storeW 1 + realized_pnl_sum storeW 1
            + ((open_positions storeW 1).map (mark_pnl pricesW)).sum ∧
      snapW.unrealized_pnl
        = ((open_positions storeW 1).map (mark_pnl pricesW)).sum :=
  total_value_accounting storeW 1 pricesW snapW get_portfolio_storeW

/-- C9: the snapshot's positions are exactly the stored rows of the model
with strictly positive quantity, and the `margin_used`, `positions_value` and
`unrealized_pnl` aggregates range over exactly those rows — a row with
`quantity ≤ 0` contributes nothing. -/
theorem only_positive_quantity_positions (st : Store) (model_id : ℤ)
    (current_prices : List (String × ℚ)) (snap : Portfolio)
    (h : get_portfolio st model_id current_prices = .ok snap) :
    (∀ q ∈ snap.positions,
        q.row ∈ st.portfolios ∧ q.row.model_id = model_id ∧ 0 < q.row.quantity) ∧
      (∀ r ∈ st.portfolios, r.model_id = model_id → 0 < r.quantity →
        ∃ q ∈ snap.positions, q.row = r) ∧
      snap.margin_used
        = ((st.portfolios.filter
              (fun p => decide (p.model_id = model_id ∧ 0 < p.quantity))).map
            (fun p => p.quantity * p.avg_price / (p.leverage : ℚ))).sum ∧
      snap.positions_value
        = ((st.portfolios.filter
              (fun p => decide (p.model_id = model_id ∧ 0 < p.quantity))).map
            (fun p => p.quantity * p.avg_price)).sum ∧
      snap.unrealized_pnl
        = ((st.portfolios.filter
              (fun p => decide (p.model_id = model_id ∧ 0 < p.quantity))).map
            (mark_pnl current_prices)).sum := by
  rcases get_portfolio_ok_inv h with ⟨mr, -, -, rfl⟩
  refine ⟨?_, ?_, rfl, rfl, ?_⟩
  · intro q hq
    have hrow := (out_positions_mem hq).1
    unfold open_positions at hrow
    rw [List.mem_filter] at hrow
    simp only [decide_eq_true_eq] at hrow
    exact ⟨hrow.1, hrow.2.1, hrow.2.2⟩
  · intro r hr hm hpos
    apply out_positions_surj
    unfold open_positions
    rw [List.mem_filter]
    exact ⟨hr, by simp [hm, hpos]⟩
  · exact out_positions_pnl_sum st model_id current_prices

/-- C9 witness: the zero-quantity DOGE row of the concrete store is dropped —
only the BTC and ETH rows appear; the aggregates range over those two rows. -/
theorem only_positive_quantity_positions_witness :
    (outBTC.row ∈ storeW.portfolios ∧ outBTC.row.model_id = 1 ∧ 0 < outBTC.row.quantity) ∧
      snapW.margin_used
        = ((storeW.portfolios.filter
              (fun p => decide (p.model_id = 1 ∧ 0 < p.quantity))).map
            (fun p => p.quantity * p.avg_price / (p.leverage : ℚ))).sum ∧
      snapW.positions_value
        = ((storeW.portfolios.filter
              (fun p => decide (p.model_id = 1 ∧ 0 < p.quantity))).map
            (fun p => p.quantity * p.avg_price)).sum := by
  have h := only_positive_quantity_positions storeW 1 pricesW snapW get_portfolio_storeW
  exact ⟨h.1 outBTC (by simp [snapW]), h.2.2.1, h.2.2.2.1⟩

/-- C5 counterexample: valuating a model id that is not in the store does not
fail with the structured `notFound` error — on the empty store it yields the
generic `typeError` of subscripting `None`. -/
theorem valuation_missing_model_counterexample :
    emptyStore.models.find? (fun mr => decide (mr.id = 1)) = none ∧
      get_portfolio emptyStore 1 [] ≠ Except.error PyError.notFound := by
  refine ⟨rfl, fun hcontra => ?_⟩
  have h : Except.error (α := Portfolio) PyError.typeError
      = Except.error (α := Portfolio) PyError.notFound := by
    rw [← hcontra]; rfl
  cases h

/-- C5 (amended): for a model id absent from the store, `get_portfolio`
always fails — but with the `TypeError` of subscripting the `None` that
`fetchone()` returns for the missing row, not with a dedicated NotFound
error. -/
theorem valuation_missing_model_fails (st : Store) (model_id : ℤ)
    (current_prices : List (String × ℚ))
    (hfind : st.models.find? (fun mr => decide (mr.id = model_id)) = none) :
    get_portfolio st model_id current_prices = .error .typeError :=
  get_portfolio_of_find_eq_none current_prices hfind

/-- C5 witness: the amended failure on the empty store. -/
theorem valuation_missing_model_fails_witness :
    get_portfolio emptyStore 1 [] = .error .typeError :=
  valuation_missing_model_fails emptyStore 1 [] rfl

/-- C10: `delete_model` removes the model row and every portfolios, trades,
conversations and account_values row of the model, keeps every row of every
other model, and is a no-op when nothing in the store belongs to the model. -/
theorem delete_model_removes_and_frames (st : Store) (model_id : ℤ) :
    (∀ r : ModelRow, r ∈ (delete_model st model_id).models
        ↔ r ∈ st.models ∧ r.id ≠ model_id) ∧
      (∀ r : PositionRow, r ∈ (delete_model st model_id).portfolios
        ↔ r ∈ st.portfolios ∧ r.model_id ≠ model_id) ∧
      (∀ r : TradeRow, r ∈ (delete_model st model_id).trades
        ↔ r ∈ st.trades ∧ r.model_id ≠ model_id) ∧
      (∀ r : ConversationRow, r ∈ (delete_model st model_id).conversations
        ↔ r ∈ st.conversations ∧ r.model_id ≠ model_id) ∧
      (∀ r : AccountValueRow, r ∈ (delete_model st model_id).account_values
        ↔ r ∈ st.account_values ∧ r.model_id ≠ model_id) ∧
      ((∀ r ∈ st.models, r.id ≠ model_id) → (∀ r ∈ st.portfolios, r.model_id ≠ model_id) →
        (∀ r ∈ st.trades, r.model_id ≠ model_id) →
        (∀ r ∈ st.conversations, r.model_id ≠ model_id) →
        (∀ r ∈ st.account_values, r.model_id ≠ model_id) →
        delete_model st model_id = st) := by
  refine ⟨?_, ?_, ?_, ?_, ?_, ?_⟩
  · intro r; simp [delete_model, List.mem_filter]
  · intro r; simp [delete_model, List.mem_filter]
  · intro r; simp [delete_model, List.mem_filter]
  · intro r; simp [delete_model, List.mem_filter]
  · intro r; simp [delete_model, List.mem_filter]
  · intro h1 h2 h3 h4 h5
    cases st with
    | mk l1 l2 l3 l4 l5 =>
      simp only [delete_model, Store.mk.injEq]
      refine ⟨?_, ?_, ?_, ?_, ?_⟩
      · exact List.filter_eq_self.mpr (fun r hr => by simpa using h1 r hr)
      · exact List.filter_eq_self.mpr (fun r hr => by simpa using h2 r hr)
      · exact List.filter_eq_self.mpr (fun r hr => by simpa using h3 r hr)
      · exact List.filter_eq_self.mpr (fun r hr => by simpa using h4 r hr)
      · exact List.filter_eq_self.mpr (fun r hr => by simpa using h5 r hr)

/-- C10 witness: deleting the absent model 2 from the concrete store (all of
whose rows belong to model 1) changes nothing. -/
theorem delete_model_removes_and_frames_witness : delete_model storeW 2 = storeW :=
  (delete_model_removes_and_frames storeW 2).2.2.2.2.2
    (by decide) (by decide) (by decide) (by decide) (by decide)

/-! ### Helper lemmas about the scheduler and the orchestrator -/

theorem foldl_add_trade (l : List TradeRow) (st : Store) :
    (l.foldl add_trade st).trades = st.trades ++ l := by
  induction l generalizing st with
  | nil => simp
  | cons t ts ih => simp [ih, add_trade]

theorem sweep_models_append (acts : ℤ → Store → Store) (current_prices : List (String × ℚ))
    (l1 l2 : List ℤ) (st : Store) :
    sweep_models acts current_prices (l1 ++ l2) st
      = ((sweep_models acts current_prices l2 (sweep_models acts current_prices l1 st).1).1,
         (sweep_models acts current_prices l1 st).2
           ++ (sweep_models acts current_prices l2 (sweep_models acts current_prices l1 st).1).2) := by
  induction l1 generalizing st with
  | nil => simp [sweep_models]
  | cons m rest ih =>
    simp only [List.cons_append, sweep_models]
    cases execute_trading_cycle (acts m) st m current_prices with
    | error e => simp [ih]
    | ok st' => simp [ih]

theorem sweep_models_length (acts : ℤ → Store → Store) (current_prices : List (String × ℚ))
    (l : List ℤ) (st : Store) :
    (sweep_models acts current_prices l st).2.length = l.length := by
  induction l generalizing st with
  | nil => rfl
  | cons m rest ih =>
    simp only [sweep_models]
    cases execute_trading_cycle (acts m) st m current_prices with
    | error e => simp [ih]
    | ok st' => simp [ih]

theorem trading_loop_iter_stopped {auto_trading : Bool} {acts : ℤ → Store → Store}
    {current_prices : List (String × ℚ)} {registry : List ℤ} {st : Store}
    {loop_fault : Option PyError}
    (h : (trading_loop_iter auto_trading acts current_prices registry st loop_fault).1
      = .stopped) :
    auto_trading = false := by
  by_contra hauto
  rw [Bool.not_eq_false] at hauto
  subst hauto
  unfold trading_loop_iter at h
  simp only [Bool.true_eq_false, if_false] at h
  cases loop_fault with
  | some e => simp at h
  | none =>
    by_cases hreg : registry.isEmpty <;> simp [hreg] at h

/-! ### The claims about the orchestrator and the scheduler -/

/-- C6: of two simultaneous `run` invocations for one model, in either
acquisition order, exactly one completes (`done`) while the other gets an
immediate `concurrentError`, and the trade rows of exactly one cycle — never
both — are appended to the store. -/
theorem run_single_flight (a_first : Bool) (trades_a trades_b : List TradeRow) (st : Store) :
    (((race a_first trades_a trades_b st).1.1 = .done ∧
        (race a_first trades_a trades_b st).1.2 = .concurrentError) ∨
      ((race a_first trades_a trades_b st).1.1 = .concurrentError ∧
        (race a_first trades_a trades_b st).1.2 = .done)) ∧
      (race a_first trades_a trades_b st).2.trades
        = st.trades ++ (if a_first then trades_a else trades_b) := by
  cases a_first with
  | true => exact ⟨Or.inl ⟨rfl, rfl⟩, by simp [race, try_acquire, foldl_add_trade]⟩
  | false => exact ⟨Or.inr ⟨rfl, rfl⟩, by simp [race, try_acquire, foldl_add_trade]⟩

/-- C7: the scheduler loop stops only at a pass whose shutdown flag is
cleared; with the flag set, no pass outcome is `stopped` — a loop-level
exception yields the short 60-second backoff pass (against the 180-second
inter-cycle sleep) and the loop resumes, and an exception inside one model's
cycle is absorbed by the sweep, which still produces one logged outcome per
model of the snapshot. -/
theorem scheduler_loop_resilient (acts : ℤ → Store → Store)
    (current_prices : List (String × ℚ)) (env : ℕ → Bool × List ℤ × Option PyError) :
    (∀ fuel k st j, trading_loop acts current_prices env fuel k st = some j →
        (env j).1 = false) ∧
      (∀ registry st e,
        (trading_loop_iter true acts current_prices registry st (some e)).1
          = .ran 60 [] ∧ 60 < 180) ∧
      (∀ registry st loop_fault,
        (trading_loop_iter true acts current_prices registry st loop_fault).1 ≠ .stopped) ∧
      (∀ registry st,
        (sweep_models acts current_prices registry st).2.length = registry.length) := by
  refine ⟨?_, ?_, ?_, ?_⟩
  · intro fuel
    induction fuel with
    | zero => intro k st j h; cases h
    | succ n ih =>
      intro k st j h
      unfold trading_loop at h
      dsimp only at h
      rcases hiter : trading_loop_iter (env k).1 acts current_prices (env k).2.1 st (env k).2.2
        with ⟨out, st'⟩
      rw [hiter] at h
      cases out with
      | stopped =>
        have hk : j = k := by cases h; rfl
        subst hk
        exact trading_loop_iter_stopped (by rw [hiter])
      | ran s lg => exact ih (k + 1) st' j h
  · intro registry st e
    exact ⟨rfl, by norm_num⟩
  · intro registry st loop_fault h
    cases trading_loop_iter_stopped h
  · intro registry st
    exact sweep_models_length acts current_prices registry st

/-- C7 witness: a pass with the flag up and a loop-level fault backs off for
60 seconds; a two-pass run stops exactly at the pass whose flag is down; the
sweep logs one outcome per model. -/
theorem scheduler_loop_resilient_witness :
    ((fun k => (decide (k = 0), ([1] : List ℤ), some PyError.typeError)) 1).1 = false ∧
      (trading_loop_iter true (fun _ s => s) pricesW [1] emptyStore
          (some PyError.typeError)).1 = .ran 60 [] ∧
      (sweep_models (fun _ s => s) pricesW [1] emptyStore).2.length = [1].length := by
  have h := scheduler_loop_resilient (fun _ s => s) pricesW
    (fun k => (decide (k = 0), ([1] : List ℤ), some PyError.typeError))
  exact ⟨h.1 2 0 emptyStore 1 (by rfl), (h.2.1 [1] emptyStore PyError.typeError).1,
    h.2.2.2 [1] emptyStore⟩

/-- C8: a model deleted between the scheduler's registry snapshot and its
invocation (so that, when its turn comes, its store rows are gone — which is
what `delete_model` leaves behind) contributes exactly one failure log entry,
mutates nothing, and the models after it in the snapshot are swept exactly as
they would have been without it; the sweep itself returns normally. -/
theorem mid_sweep_deletion_skipped (acts : ℤ → Store → Store)
    (current_prices : List (String × ℚ)) (pre post : List ℤ) (d : ℤ) (st : Store)
    (hgone : (sweep_models acts current_prices pre st).1.models.find?
        (fun mr => decide (mr.id = d)) = none) :
    (∀ s : Store,
        (delete_model s d).models.find? (fun mr => decide (mr.id = d)) = none) ∧
      sweep_models acts current_prices (pre ++ d :: post) st
        = ((sweep_models acts current_prices post
              (sweep_models acts current_prices pre st).1).1,
           (sweep_models acts current_prices pre st).2
             ++ (d, false)
               :: (sweep_models acts current_prices post
                    (sweep_models acts current_prices pre st).1).2) := by
  constructor
  · intro s
    rw [List.find?_eq_none]
    intro r hr
    have := (List.mem_filter.mp hr).2
    simpa using this
  · rw [sweep_models_append]
    have hstep : execute_trading_cycle (acts d) (sweep_models acts current_prices pre st).1 d
        current_prices = .error .typeError := by
      unfold execute_trading_cycle
      rw [get_portfolio_of_find_eq_none current_prices hgone]
    simp [sweep_models, hstep]

/-- C8 witness: with model 1's rows present and model 2 absent, sweeping the
snapshot `[2, 1]` skips the stale entry 2 with a failure log and still sweeps
model 1. -/
theorem mid_sweep_deletion_skipped_witness :
    (delete_model storeW 2).models.find? (fun mr => decide (mr.id = 2)) = none ∧
      sweep_models (fun _ s => s) pricesW ([] ++ 2 :: [1]) storeW
        = ((sweep_models (fun _ s => s) pricesW [1]
              (sweep_models (fun _ s => s) pricesW [] storeW).1).1,
           (sweep_models (fun _ s => s) pricesW [] storeW).2
             ++ (2, false)
               :: (sweep_models (fun _ s => s) pricesW [1]
                    (sweep_models (fun _ s => s) pricesW [] storeW).1).2) := by
  have h := mid_sweep_deletion_skipped (fun _ s => s) pricesW [] [1] 2 storeW (by rfl)
  exact ⟨h.1 storeW, h.2⟩
